import Mathlib

/-!
Verification of the Wgrest-Docker sync service (src/sync-service and
src/scripts) against its specification.  The Python modules are shallowly
embedded: pure data transformations become Lean functions, the external
collaborators (Fernet cipher, wgrest HTTP API, `wg pubkey` subprocess,
PostgreSQL statements) become explicit parameters/oracles, and Python
exceptions become `Option`/`Except` values.
-/

/-- Model of the Fernet cipher consumed by `encryption.py` as an opaque
encrypt/decrypt capability.  `enc` always yields a token (Fernet encryption
of a string on a valid key does not fail), `dec` validates and inverts it.
`dec_enc` is Fernet's round-trip guarantee and `enc_ne` records that a
Fernet token is never the empty string. -/
structure Cipher where
  enc : String → String
  dec : String → Option String
  dec_enc : ∀ p : String, dec (enc p) = some p
  enc_ne : ∀ p : String, enc p ≠ ""

/-- Embedding of `EncryptionHelper.encrypt` (encryption.py lines 25-45):
empty input returns None, otherwise the Fernet token. -/
def encrypt (c : Cipher) (data : String) : Option String :=
  if data = "" then Option.none else some (c.enc data)

/-- Embedding of `EncryptionHelper.decrypt` (encryption.py lines 47-67):
falsy input returns None; otherwise the cipher is applied and any
decryption failure is caught and turned into None. -/
def decrypt (c : Cipher) (encrypted_data : String) : Option String :=
  if encrypted_data = "" then Option.none else c.dec encrypted_data

/-- Embedding of `EncryptionHelper.encrypt_if_present` (encryption.py lines
69-81): encrypt only when the data is truthy and has a truthy strip. -/
def encrypt_if_present (c : Cipher) (data : Option String) : Option String :=
  match data with
  | some s => if s ≠ "" ∧ s.trim ≠ "" then encrypt c s else Option.none
  | Option.none => Option.none

/-- Embedding of `decrypt_field` (src/scripts/decrypt_helper.py lines
26-35): falsy input returns None; a decryption failure returns the input
unchanged (assumed to be legacy plaintext). -/
def decrypt_field (c : Cipher) (encrypted_data : Option String) : Option String :=
  match encrypted_data with
  | Option.none => Option.none
  | some s =>
    if s = "" then Option.none
    else
      match c.dec s with
      | some p => some p
      | Option.none => some s

/-- Concrete cipher instance used for witnesses and counterexamples: the
token is the plaintext tagged with a leading marker character. -/
def concreteCipher : Cipher where
  enc p := String.mk ('g' :: p.data)
  dec s :=
    match s.data with
    | [] => Option.none
    | c :: rest => if c = 'g' then some (String.mk rest) else Option.none
  dec_enc p := rfl
  enc_ne p := by
    intro h
    have h2 : ('g' :: p.data) = ([] : List Char) := congrArg String.data h
    exact List.cons_ne_nil _ _ h2

/-- Dynamic value as delivered by the JSON-decoded wgrest API responses:
the subset of Python values that can populate a peer dictionary field
(None, str, int, bool, or a list of such values). -/
inductive PyVal where
  | none : PyVal
  | str : String → PyVal
  | int : Int → PyVal
  | bool : Bool → PyVal
  | list : List PyVal → PyVal
deriving BEq

/-- Python truthiness for the modelled values: None, empty string, zero,
False and the empty list are falsy. -/
def pyTruthy : PyVal → Bool
  | PyVal.none => false
  | PyVal.str s => !s.isEmpty
  | PyVal.int n => decide (n ≠ 0)
  | PyVal.bool b => b
  | PyVal.list xs => !xs.isEmpty

mutual

/-- Python repr of a modelled value, as used when a list is interpolated
into an f-string (string escaping inside reprs is not modelled). -/
def pyRepr : PyVal → String
  | PyVal.none => "None"
  | PyVal.str s => "'" ++ s ++ "'"
  | PyVal.int n => toString n
  | PyVal.bool b => if b then "True" else "False"
  | PyVal.list xs => "[" ++ pyReprList xs ++ "]"

/-- Comma-separated reprs of the elements of a Python list. -/
def pyReprList : List PyVal → String
  | [] => ""
  | [x] => pyRepr x
  | x :: y :: xs => pyRepr x ++ ", " ++ pyReprList (y :: xs)

end

/-- Python str() of a modelled value (a str is itself, other values render
via their repr). -/
def pyStr : PyVal → String
  | PyVal.str s => s
  | v => pyRepr v

/-- Python `v.strip()`: defined for strings, an AttributeError (modelled as
`Except.error`) for every other value. -/
def pyStrip : PyVal → Except Unit String
  | PyVal.str s => Except.ok s.trim
  | _ => Except.error ()

/-- Python `len(v)`: defined for strings and lists, a TypeError for every
other value. -/
def pyLen : PyVal → Except Unit Nat
  | PyVal.str s => Except.ok s.length
  | PyVal.list xs => Except.ok xs.length
  | _ => Except.error ()

/-- Python slice `v[-8:]` on a string or list; TypeError otherwise. -/
def pyLastEight : PyVal → Except Unit PyVal
  | PyVal.str s => Except.ok (PyVal.str (String.mk (s.data.drop (s.data.length - 8))))
  | PyVal.list xs => Except.ok (PyVal.list (xs.drop (xs.length - 8)))
  | _ => Except.error ()

/-- Python slice `v[:100]` on a string or list; TypeError otherwise. -/
def pySliceHundred : PyVal → Except Unit PyVal
  | PyVal.str s => Except.ok (PyVal.str (String.mk (s.data.take 100)))
  | PyVal.list xs => Except.ok (PyVal.list (xs.take 100))
  | _ => Except.error ()

/-- A peer dictionary as returned by the wgrest peers endpoint: each field
is present (with a dynamic value) or missing, mirroring `dict.get`. -/
structure PeerJson where
  name : Option PyVal := Option.none
  public_key : Option PyVal := Option.none
  preshared_key : Option PyVal := Option.none
  allowed_ips : Option PyVal := Option.none
  persistent_keepalive_interval : Option PyVal := Option.none
  endpoint : Option PyVal := Option.none
  enabled : Option PyVal := Option.none

/-- Row shape built by `DataProcessor._process_single_peer` (the dictionary
inserted by `SyncDatabase.sync_peers`). -/
structure PeerRecordSig where
  interface_name : String
  name : PyVal
  private_key : String
  public_key : PyVal
  allowed_ips : String
  endpoint : Option String
  persistent_keepalive : Option Int
  enabled : PyVal
  preshared_key : Option String

/-- Embedding of `SyncDatabase.sync_peers` (database.py lines 115-142) on
the peers-table state: `DELETE FROM peers` clears the table, then each row
of `peers_data` is inserted in order.  Insert failures abort the run (the
exception propagates), so a successful call executes the whole fold. -/
def sync_peers (table : List PeerRecordSig) (peers_data : List PeerRecordSig) :
    List PeerRecordSig :=
  let cleared : List PeerRecordSig := []
  peers_data.foldl (fun t p => t ++ [p]) cleared

/-- Helper: folding snoc-appends of `f` over a list extends the
accumulator with the mapped list. -/
theorem foldl_snoc_eq_map {α β : Type} (f : α → β) :
    ∀ (l : List α) (acc : List β),
      l.foldl (fun a x => a ++ [f x]) acc = acc ++ l.map f := by
  intro l
  induction l with
  | nil => intro acc; simp
  | cons x xs ih =>
    intro acc
    simp only [List.foldl_cons, List.map_cons]
    rw [ih]
    simp

/-- C1: a successful `sync_peers(peers_data)` leaves the peers table equal
to exactly `peers_data`, whatever was there before; hence after successive
runs with peer sets `d1` then `d2` the table is exactly `d2` (stale rows of
`d1` are gone and surviving rows carry `d2`'s attributes). -/
theorem c1_full_peer_replacement (t : List PeerRecordSig)
    (d1 d2 : List PeerRecordSig) :
    sync_peers t d1 = d1 ∧ sync_peers (sync_peers t d1) d2 = d2 := by
  constructor
  · show List.foldl (fun a x => a ++ [x]) [] d1 = d1
    rw [foldl_snoc_eq_map (fun x => x) d1 []]
    simp
  · show List.foldl (fun a x => a ++ [x]) [] d2 = d2
    rw [foldl_snoc_eq_map (fun x => x) d2 []]
    simp

/-- C2 fails on the code: the string consisting of the single character x
is not valid ciphertext of the concrete cipher, yet the core
`EncryptionHelper.decrypt` returns None (absent), not the input unchanged. -/
theorem c2_counterexample :
    concreteCipher.dec "x" = Option.none ∧ decrypt concreteCipher "x" ≠ some "x" := by
  constructor
  · rfl
  · intro h
    simp [decrypt, concreteCipher] at h

/-- C2 amended: for any input that fails cipher validation the core
`EncryptionHelper.decrypt` returns absent (None) without raising, while the
standalone script helper `decrypt_field` is the function that returns the
input unchanged as legacy plaintext. -/
theorem c2_amended (c : Cipher) (x : String) (hx : c.dec x = Option.none) :
    decrypt c x = Option.none ∧ (x ≠ "" → decrypt_field c (some x) = some x) := by
  constructor
  · unfold decrypt
    by_cases h : x = ""
    · simp [h]
    · simp [h, hx]
  · intro hne
    unfold decrypt_field
    simp [hne, hx]

/-- Witness for the amended C2 at the concrete cipher and input x. -/
theorem c2_amended_witness :
    decrypt concreteCipher "x" = Option.none ∧
      decrypt_field concreteCipher (some "x") = some "x" := by
  have h := c2_amended concreteCipher "x" rfl
  exact ⟨h.1, h.2 (by decide)⟩

/-- C8: encryption round-trip: for non-empty plaintext, decrypting the
stored ciphertext restores the plaintext; and `encrypt` of empty input and
`encrypt_if_present` of absent input return no value rather than
ciphertext. -/
theorem c8_roundtrip (c : Cipher) (p : String) (hp : p ≠ "") :
    ((encrypt c p).bind (decrypt c) = some p) ∧
      encrypt c "" = Option.none ∧
      encrypt_if_present c Option.none = Option.none := by
  refine ⟨?_, rfl, rfl⟩
  unfold encrypt decrypt
  rw [if_neg hp]
  show (if c.enc p = "" then Option.none else c.dec (c.enc p)) = some p
  rw [if_neg (c.enc_ne p)]
  exact c.dec_enc p

/-- Witness for C8 at the concrete cipher and plaintext k1. -/
theorem c8_roundtrip_witness :
    ((encrypt concreteCipher "k1").bind (decrypt concreteCipher) = some "k1") ∧
      encrypt concreteCipher "" = Option.none ∧
      encrypt_if_present concreteCipher Option.none = Option.none :=
  c8_roundtrip concreteCipher "k1" (by decide)

/-- ASCII whitespace recognised by the string trimming model (the
whitespace characters that occur in WireGuard config and API data). -/
def isWsChar (c : Char) : Bool :=
  c = ' ' || c = '\t' || c = '\n' || c = '\r'

/-- Python `str.strip()` modelled on character lists. -/
def trimChars (l : List Char) : List Char :=
  ((l.dropWhile isWsChar).reverse.dropWhile isWsChar).reverse

/-- Decimal digit run to a number; None unless the list is a non-empty
all-digit run. -/
def digitsToNat? (l : List Char) : Option Nat :=
  if l ≠ [] ∧ l.all Char.isDigit then
    some (l.foldl (fun a c => a * 10 + (c.toNat - 48)) 0)
  else Option.none

/-- Python `int(...)` applied to a stripped character list: an optional
sign followed by decimal digits (digit-grouping underscores are not
modelled). -/
def pyIntChars (l : List Char) : Option Int :=
  match l with
  | '+' :: rest => (digitsToNat? rest).map (fun n => (n : Int))
  | '-' :: rest => (digitsToNat? rest).map (fun n => -(n : Int))
  | _ => (digitsToNat? l).map (fun n => (n : Int))

/-- Python `int(s)` for a string: leading/trailing whitespace is stripped,
then sign and digits are parsed; None models ValueError. -/
def pyIntOfString (s : String) : Option Int :=
  pyIntChars (trimChars s.data)

/-- Python `int(v)` for a dynamic value: ints pass through, bools coerce to
0/1, strings parse, everything else is a TypeError; both error kinds are
collapsed to None because every caller catches them. -/
def pyToInt : PyVal → Option Int
  | PyVal.int n => some n
  | PyVal.bool b => some (if b then 1 else 0)
  | PyVal.str s => pyIntOfString s
  | _ => Option.none

/-- Embedding of the preshared-key handling at the start of
`DataProcessor._process_single_peer` (data_processor.py lines 159-165):
`if preshared_key_raw and preshared_key_raw.strip(): encrypt(raw)`; calling
`.strip()` on a truthy non-string raises (error), a blank or falsy key
yields no ciphertext. -/
def encryptPsk (c : Cipher) (v : PyVal) : Except Unit (Option String) :=
  if pyTruthy v then
    match v with
    | PyVal.str s => if s.trim.isEmpty then Except.ok Option.none else Except.ok (encrypt c s)
    | _ => Except.error ()
  else Except.ok Option.none

/-- Embedding of `DataProcessor._generate_peer_name` (data_processor.py
lines 201-211): explicit truthy name wins; otherwise peer_ plus the last 8
characters of a long-enough public key; otherwise peer_ plus the sequential
number.  `len` on a truthy non-sized public key raises. -/
def generatePeerName (peer : PeerJson) (peer_number : Nat) : Except Unit PyVal :=
  let nm := peer.name.getD (PyVal.str "")
  if pyTruthy nm then Except.ok nm
  else
    let pk := peer.public_key.getD (PyVal.str "")
    if pyTruthy pk then
      match pyLen pk with
      | Except.error e => Except.error e
      | Except.ok l =>
        if l ≥ 8 then
          match pyLastEight pk with
          | Except.error e => Except.error e
          | Except.ok sliced => Except.ok (PyVal.str ("peer_" ++ pyStr sliced))
        else Except.ok (PyVal.str ("peer_" ++ toString peer_number))
    else Except.ok (PyVal.str ("peer_" ++ toString peer_number))

/-- Strip each element of a Python list, keeping the non-blank results in
order; a non-string element raises out of the list comprehension. -/
def stripEach : List PyVal → Except Unit (List String)
  | [] => Except.ok []
  | v :: vs =>
    match pyStrip v with
    | Except.error e => Except.error e
    | Except.ok s =>
      match stripEach vs with
      | Except.error e => Except.error e
      | Except.ok rest => Except.ok (if s.isEmpty then rest else s :: rest)

/-- Splitting a character list at a separator character (Python
`str.split(sep)` with all fields kept). -/
def splitChar (sep : Char) : List Char → List (List Char)
  | [] => [[]]
  | c :: cs =>
    if c = sep then [] :: splitChar sep cs
    else
      match splitChar sep cs with
      | [] => [[c]]
      | r :: rs => (c :: r) :: rs

/-- Embedding of `DataProcessor._process_allowed_ips` (data_processor.py
lines 213-225): falsy input gives the empty sequence; a list is stripped
element-wise keeping non-blank entries (a non-string element raises); a
string is split on commas, stripped and filtered; any other type logs and
gives the empty sequence. -/
def processAllowedIps (v : PyVal) : Except Unit (List String) :=
  if pyTruthy v then
    match v with
    | PyVal.list xs => stripEach xs
    | PyVal.str s =>
      Except.ok (((splitChar ',' s.data).map (fun part => String.mk (trimChars part))).filter
        (fun t => !t.isEmpty))
    | _ => Except.ok []
  else Except.ok []

/-- Embedding of `DataProcessor._process_keepalive` (data_processor.py
lines 227-236): None stays absent; otherwise `int(...)` is attempted, a
positive result is kept, non-positive results and ValueError/TypeError give
absent. -/
def processKeepalive : PyVal → Option Int
  | PyVal.none => Option.none
  | v =>
    match pyToInt v with
    | some k => if k > 0 then some k else Option.none
    | Option.none => Option.none

/-- Embedding of `DataProcessor._process_endpoint` (data_processor.py lines
238-242): a truthy non-string is converted with str(), then a truthy result
is kept and a falsy one becomes absent. -/
def processEndpoint : PyVal → Option String
  | PyVal.str s => if s.isEmpty then Option.none else some s
  | v => if pyTruthy v then some (pyStr v) else Option.none

/-- Python `json.dumps` of a list of strings, as applied to the normalized
allowed-IP sequence (string escaping is not modelled). -/
def jsonDumps (xs : List String) : String :=
  "[" ++ String.intercalate ", " (xs.map (fun s => "\"" ++ s ++ "\"")) ++ "]"

/-- Body of the try-block of `DataProcessor._process_single_peer`
(data_processor.py lines 158-195), sequencing the field computations in
source order; any raise aborts the whole peer. -/
def processSinglePeerBody (c : Cipher) (peer : PeerJson) (interface_name : String)
    (peer_number : Nat) : Except Unit PeerRecordSig :=
  match encryptPsk c (peer.preshared_key.getD (PyVal.str "")) with
  | Except.error e => Except.error e
  | Except.ok preshared_key_encrypted =>
    match generatePeerName peer peer_number with
    | Except.error e => Except.error e
    | Except.ok peer_name =>
      match processAllowedIps (peer.allowed_ips.getD (PyVal.list [])) with
      | Except.error e => Except.error e
      | Except.ok allowed_ips =>
        let keepalive := processKeepalive (peer.persistent_keepalive_interval.getD PyVal.none)
        let endpoint := processEndpoint (peer.endpoint.getD (PyVal.str ""))
        match pySliceHundred peer_name with
        | Except.error e => Except.error e
        | Except.ok name_limited =>
          Except.ok
            { interface_name := interface_name
              name := name_limited
              private_key := ""
              public_key := peer.public_key.getD (PyVal.str "")
              allowed_ips := jsonDumps allowed_ips
              endpoint := endpoint
              persistent_keepalive := keepalive
              enabled := peer.enabled.getD (PyVal.bool true)
              preshared_key := preshared_key_encrypted }

/-- Embedding of `DataProcessor._process_single_peer` (data_processor.py
lines 146-199): the catch-all except turns any raise into None (the peer is
skipped and logged). -/
def processSinglePeer (c : Cipher) (peer : PeerJson) (interface_name : String)
    (peer_number : Nat) : Option PeerRecordSig :=
  match processSinglePeerBody c peer interface_name peer_number with
  | Except.ok r => some r
  | Except.error _ => Option.none

/-- Inner loop of `DataProcessor.process_peers` over one interface's peer
list: `total` is the running total of peers already stored; returns the
records kept and this interface's count. -/
def processPeerList (c : Cipher) (interface_name : String) :
    List PeerJson → Nat → List PeerRecordSig × Nat
  | [], _ => ([], 0)
  | p :: ps, total =>
    match processSinglePeer c p interface_name (total + 1) with
    | some r =>
      let rest := processPeerList c interface_name ps (total + 1)
      (r :: rest.1, rest.2 + 1)
    | Option.none => processPeerList c interface_name ps total

/-- Outer loop of `DataProcessor.process_peers` (data_processor.py lines
116-144) over the interface-to-peer-list mapping, threading the running
total used for sequential peer naming. -/
def processPeersAux (c : Cipher) :
    List (String × List PeerJson) → Nat → List PeerRecordSig × List (String × Nat)
  | [], _ => ([], [])
  | (interface_name, peers) :: rest, total =>
    let this := processPeerList c interface_name peers total
    let tail := processPeersAux c rest (total + this.2)
    (this.1 ++ tail.1, (interface_name, this.2) :: tail.2)

/-- Embedding of `DataProcessor.process_peers`: returns the processed peer
rows and the per-interface count mapping. -/
def process_peers (c : Cipher) (all_peers : List (String × List PeerJson)) :
    List PeerRecordSig × List (String × Nat) :=
  processPeersAux c all_peers 0

/-- C9: every peer record emitted by the single-peer processor carries an
empty private_key: client private keys are never placed in a
persistence-ready record, whatever the input peer data. -/
theorem c9_peer_private_key_empty (c : Cipher) (peer : PeerJson)
    (interface_name : String) (peer_number : Nat) (r : PeerRecordSig)
    (h : processSinglePeer c peer interface_name peer_number = some r) :
    r.private_key = "" := by
  have body : ∀ r2 : PeerRecordSig,
      processSinglePeerBody c peer interface_name peer_number = Except.ok r2 →
      r2.private_key = "" := by
    intro r2 hb
    unfold processSinglePeerBody at hb
    repeat' split at hb
    all_goals simp_all
    all_goals rw [hb.symm]
  unfold processSinglePeer at h
  cases hb : processSinglePeerBody c peer interface_name peer_number with
  | ok r2 =>
    rw [hb] at h
    simp only [Option.some_inj] at h
    rw [h.symm]
    exact body r2 hb
  | error e =>
    rw [hb] at h
    exact Option.noConfusion h

/-- All-defaults peer input used by the C9 witness. -/
def peerJsonZero : PeerJson := {}

/-- The record the processor produces from the all-defaults peer. -/
def peerRecordZero : PeerRecordSig where
  interface_name := "wg0"
  name := PyVal.str "peer_1"
  private_key := ""
  public_key := PyVal.str ""
  allowed_ips := "[]"
  endpoint := Option.none
  persistent_keepalive := Option.none
  enabled := PyVal.bool true
  preshared_key := Option.none

/-- Witness for C9 on a concrete peer input. -/
theorem c9_peer_private_key_empty_witness :
    processSinglePeer concreteCipher peerJsonZero "wg0" 1 = some peerRecordZero ∧
      peerRecordZero.private_key = "" :=
  ⟨rfl, c9_peer_private_key_empty concreteCipher peerJsonZero "wg0" 1 peerRecordZero rfl⟩

/-- Helper: within one interface, the number of records kept equals the
reported per-interface count. -/
theorem processPeerList_length (c : Cipher) (interface_name : String) :
    ∀ (ps : List PeerJson) (total : Nat),
      (processPeerList c interface_name ps total).1.length =
        (processPeerList c interface_name ps total).2 := by
  intro ps
  induction ps with
  | nil => intro total; rfl
  | cons p rest ih =>
    intro total
    unfold processPeerList
    cases hp : processSinglePeer c p interface_name (total + 1) with
    | some r => simp [ih (total + 1)]
    | none => exact ih total

/-- Helper: the count mapping keys follow the input keys and the counts sum
to the number of records, for any starting total. -/
theorem processPeersAux_spec (c : Cipher) :
    ∀ (all_peers : List (String × List PeerJson)) (total : Nat),
      ((processPeersAux c all_peers total).2.map Prod.fst = all_peers.map Prod.fst) ∧
        (((processPeersAux c all_peers total).2.map Prod.snd).sum =
          (processPeersAux c all_peers total).1.length) := by
  intro all_peers
  induction all_peers with
  | nil => intro total; exact ⟨rfl, rfl⟩
  | cons hd rest ih =>
    intro total
    obtain ⟨n, ps⟩ := hd
    unfold processPeersAux
    constructor
    · simp [(ih _).1]
    · simp only [List.map_cons, List.sum_cons, List.length_append]
      rw [(ih _).2, processPeerList_length]

/-- C10: the count map of `process_peers` has exactly the input interfaces
as keys, in order (an interface with no successfully processed peers
appears with count 0), and the counts sum to the number of records
returned, so skipped malformed peers are counted in neither. -/
theorem c10_peer_counts_consistent (c : Cipher)
    (all_peers : List (String × List PeerJson)) :
    ((process_peers c all_peers).2.map Prod.fst = all_peers.map Prod.fst) ∧
      (((process_peers c all_peers).2.map Prod.snd).sum =
        (process_peers c all_peers).1.length) :=
  processPeersAux_spec c all_peers 0

/-- Python `str.lower()` on a character list (ASCII case folding as used by
WireGuard config keys). -/
def lowerChars (l : List Char) : List Char := l.map Char.toLower

/-- Python `line.split(sep, 1)`: the part before the first separator and,
when a separator exists, the remainder after it. -/
def splitFirst (sep : Char) : List Char → List Char × Option (List Char)
  | [] => ([], Option.none)
  | c :: cs =>
    if c = sep then ([], some cs)
    else
      let r := splitFirst sep cs
      (c :: r.1, r.2)

/-- Python `line.startswith` applied to the hash comment marker. -/
def startsWithHash : List Char → Bool
  | c :: _ => c = '#'
  | [] => false

/-- Per-interface network parameters returned by
`SyncConfig.get_subnet_config` (config.py lines 98-113) and merged into a
parsed config. -/
structure SubnetConfig where
  subnet : String
  endpoint : String
  address : String
deriving DecidableEq

/-- The details dictionary built by
`WireGuardConfigParser.parse_config_content`: each key is present once set. -/
structure ConfigDetails where
  address : Option String := Option.none
  listen_port : Option Int := Option.none
  private_key : Option String := Option.none
  post_up : Option String := Option.none
  post_down : Option String := Option.none
  subnet : Option String := Option.none
  endpoint : Option String := Option.none
deriving DecidableEq

/-- One iteration of the parse loop (config_parser.py lines 91-110): strip
the line, require an equals sign on a non-comment line, split at the first
equals sign, lowercase and strip the key, strip the value, then assign the
matching detail field; an unparsable listenport value leaves the details
untouched. -/
def parseLineChars (details : ConfigDetails) (line : List Char) : ConfigDetails :=
  let l := trimChars line
  if l.contains '=' && !startsWithHash l then
    let kv := splitFirst '=' l
    let key := lowerChars (trimChars kv.1)
    let value := String.mk (trimChars (kv.2.getD []))
    if key = "address".data then { details with address := some value }
    else if key = "listenport".data then
      match pyIntOfString value with
      | some n => { details with listen_port := some n }
      | Option.none => details
    else if key = "privatekey".data then { details with private_key := some value }
    else if key = "postup".data then { details with post_up := some value }
    else if key = "postdown".data then { details with post_down := some value }
    else details
  else details

/-- Embedding of `WireGuardConfigParser.parse_config_content`
(config_parser.py lines 73-117): falsy content parses to the empty details;
otherwise the content is split on newlines and folded through the line
parser, and a truthy subnet configuration is merged in whenever an address
was parsed. -/
def parse_config_content (config_content : String) (interface_name : String)
    (subnet_config : Option SubnetConfig) : ConfigDetails :=
  if config_content = "" then {}
  else
    let details := (splitChar '\n' config_content.data).foldl parseLineChars {}
    match subnet_config with
    | some sc =>
      if details.address.isSome then
        { details with
            subnet := some sc.subnet
            endpoint := some sc.endpoint
            address := some sc.address }
      else details
    | Option.none => details

/-- C6 fails on the code: with a duplicated Address key the parser keeps
the last assignment, not the first. -/
theorem c6_counterexample :
    (parse_config_content "Address = 10.0.0.1\nAddress = 10.0.0.2" "wg0"
        Option.none).address = some "10.0.0.2" ∧
      (parse_config_content "Address = 10.0.0.1\nAddress = 10.0.0.2" "wg0"
        Option.none).address ≠ some "10.0.0.1" := by
  constructor
  · rfl
  · decide

/-- Helper: splitting never produces the empty segment list. -/
theorem splitChar_ne_nil (sep : Char) : ∀ l : List Char, splitChar sep l ≠ [] := by
  intro l
  induction l with
  | nil => simp [splitChar]
  | cons c cs ih =>
    unfold splitChar
    by_cases h : c = sep
    · simp [h]
    · simp only [if_neg h]
      cases hsp : splitChar sep cs with
      | nil => simp
      | cons r rs => simp

/-- Helper: the one-step unfolding of `splitChar` on a cons cell. -/
theorem splitChar_cons (sep c : Char) (cs : List Char) :
    splitChar sep (c :: cs) =
      if c = sep then [] :: splitChar sep cs
      else
        match splitChar sep cs with
        | [] => [[c]]
        | r :: rs => (c :: r) :: rs := rfl

/-- Helper: splitting distributes over a separator occurrence. -/
theorem splitChar_append (sep : Char) :
    ∀ xs ys : List Char,
      splitChar sep (xs ++ sep :: ys) = splitChar sep xs ++ splitChar sep ys := by
  intro xs
  induction xs with
  | nil =>
    intro ys
    show splitChar sep (sep :: ys) = splitChar sep [] ++ splitChar sep ys
    rw [splitChar_cons]
    simp [splitChar]
  | cons x xs ih =>
    intro ys
    show splitChar sep (x :: (xs ++ sep :: ys)) = splitChar sep (x :: xs) ++ splitChar sep ys
    rw [splitChar_cons, splitChar_cons, ih ys]
    by_cases h : x = sep
    · simp [h]
    · simp only [if_neg h]
      cases hsp : splitChar sep xs with
      | nil => exact absurd hsp (splitChar_ne_nil sep xs)
      | cons r rs => simp

/-- Helper: parsing a text of the form pre + newline + suffix folds the
line parser over pre's lines and then over suffix's lines. -/
theorem parse_config_append (pre suffix : String) (iface : String)
    (rest : List Char) (hs : suffix.data = '\n' :: rest) :
    parse_config_content (pre ++ suffix) iface Option.none =
      (splitChar '\n' rest).foldl parseLineChars
        ((splitChar '\n' pre.data).foldl parseLineChars {}) := by
  have h1 : (pre ++ suffix).data = pre.data ++ '\n' :: rest := by
    show pre.data ++ suffix.data = pre.data ++ '\n' :: rest
    rw [hs]
  have hne : pre ++ suffix ≠ "" := by
    intro h
    have h2 := congrArg String.data h
    rw [h1] at h2
    rcases List.append_eq_nil.mp h2 with ⟨h3, h4⟩
    exact List.cons_ne_nil _ _ h4
  unfold parse_config_content
  rw [if_neg hne]
  show (splitChar '\n' (pre ++ suffix).data).foldl parseLineChars {} = _
  rw [h1, splitChar_append, List.foldl_append]

/-- C6 amended: parsing is case-insensitive on keys, ignores lines starting
with a hash, keeps the LAST parsable assignment per key (a later assignment
overwrites an earlier one), and skips an unparsable listenport assignment
without failing the rest of the parse. -/
theorem c6_amended (pre : String) :
    (parse_config_content (pre ++ "\nAddress = 10.9.9.9") "wg0"
        Option.none).address = some "10.9.9.9" ∧
      ((parse_config_content (pre ++ "\nListenPort = 51820\nListenPort = 5x1\nPrivateKey = sk")
          "wg0" Option.none).listen_port = some 51820 ∧
        (parse_config_content (pre ++ "\nListenPort = 51820\nListenPort = 5x1\nPrivateKey = sk")
          "wg0" Option.none).private_key = some "sk") ∧
      (parse_config_content "# Address = 1.2.3.4" "wg0" Option.none).address = Option.none ∧
      parse_config_content "ADDRESS = 7.7.7.7" "wg0" Option.none =
        parse_config_content "address = 7.7.7.7" "wg0" Option.none := by
  refine ⟨?_, ⟨?_, ?_⟩, rfl, rfl⟩
  · rw [parse_config_append pre "\nAddress = 10.9.9.9" "wg0" "Address = 10.9.9.9".data rfl]
    rfl
  · rw [parse_config_append pre "\nListenPort = 51820\nListenPort = 5x1\nPrivateKey = sk"
      "wg0" "ListenPort = 51820\nListenPort = 5x1\nPrivateKey = sk".data rfl]
    rfl
  · rw [parse_config_append pre "\nListenPort = 51820\nListenPort = 5x1\nPrivateKey = sk"
      "wg0" "ListenPort = 51820\nListenPort = 5x1\nPrivateKey = sk".data rfl]
    rfl

/-- Interface fields reported by the wgrest devices endpoint that the sync
service reads: each field is present or missing, mirroring `dict.get`. -/
structure ApiInterface where
  public_key : Option String := Option.none
  listen_port : Option Int := Option.none
deriving DecidableEq

/-- Outcome of one HTTP GET of an interface's peers, at the boundary
modelled around `requests` in `WgrestApiClient.get_peers`: a decoded peer
list, an HTTPError with a status code raised by raise_for_status, a
RequestException, or any other exception. -/
inductive PeersApiResult where
  | success : List PeerJson → PeersApiResult
  | httpError : Nat → PeersApiResult
  | requestError : PeersApiResult
  | otherError : PeersApiResult

/-- The remote wgrest API as an oracle: the result of the devices listing
(`get_interfaces`, already folded to its Optional dictionary) and the
per-interface peers response. -/
structure ApiEnv where
  interfacesResp : Option (List (String × ApiInterface))
  peersResp : String → PeersApiResult

/-- Embedding of `WgrestApiClient.get_interfaces` (wgrest_api.py lines
28-56): the interface dictionary, or None on any request error. -/
def get_interfaces (env : ApiEnv) : Option (List (String × ApiInterface)) :=
  env.interfacesResp

/-- Embedding of `WgrestApiClient.get_peers` (wgrest_api.py lines 58-92): a
404 HTTPError yields the empty peer list, any other HTTPError,
RequestException or unexpected error yields None. -/
def get_peers (env : ApiEnv) (interface_name : String) : Option (List PeerJson) :=
  match env.peersResp interface_name with
  | PeersApiResult.success peers => some peers
  | PeersApiResult.httpError code => if code = 404 then some [] else Option.none
  | PeersApiResult.requestError => Option.none
  | PeersApiResult.otherError => Option.none

/-- The per-interface entry stored by the `get_all_peers` loop: the fetched
peers when the fetch succeeded, the empty list otherwise. -/
def peersOrEmpty (env : ApiEnv) (interface_name : String) : List PeerJson :=
  match get_peers env interface_name with
  | some peers => peers
  | Option.none => []

/-- Embedding of `WgrestApiClient.get_all_peers` (wgrest_api.py lines
94-118): every requested interface gets an entry, with the empty list
substituted whenever its fetch returned None; the mapping itself is always
returned. -/
def get_all_peers (env : ApiEnv) (interface_names : List String) :
    Option (List (String × List PeerJson)) :=
  some (interface_names.foldl (fun acc n => acc ++ [(n, peersOrEmpty env n)]) [])

/-- Environment whose peer fetches all fail with a 500 HTTPError. -/
def apiEnv500 : ApiEnv where
  interfacesResp := Option.none
  peersResp := fun _ => PeersApiResult.httpError 500

/-- C5 fails on the code: a 500 error on wg0's peer fetch makes
`get_peers` absent, yet `get_all_peers` still returns a present mapping
with the empty list substituted for wg0 instead of propagating the error as
absent. -/
theorem c5_counterexample :
    get_peers apiEnv500 "wg0" = Option.none ∧
      get_all_peers apiEnv500 ["wg0"] = some [("wg0", [])] := by
  exact ⟨rfl, rfl⟩

/-- Helper: looking up a key of the input list in the pairing map finds the
value computed for that key. -/
theorem lookup_pair_map {β : Type} (g : String → β) :
    ∀ (names : List String) (n : String), n ∈ names →
      (names.map (fun m => (m, g m))).lookup n = some (g n) := by
  intro names
  induction names with
  | nil => intro n h; cases h
  | cons m ms ih =>
    intro n h
    simp only [List.map_cons, List.lookup]
    by_cases he : n = m
    · subst he; simp
    · have hb : (n == m) = false := beq_false_of_ne he
      rw [hb]
      rcases List.mem_cons.mp h with h1 | h2
      · exact absurd h1 he
      · exact ih n h2

/-- C5 amended: `get_all_peers` always returns a present mapping with one
entry per requested interface; an interface whose fetch was reported
not-found (404) contributes the empty sequence, and an interface whose
fetch failed with any OTHER error ALSO contributes the empty sequence (the
error is logged and replaced, not propagated as absent). -/
theorem c5_amended (env : ApiEnv) (interface_names : List String) (n : String)
    (hn : n ∈ interface_names) :
    (get_all_peers env interface_names).isSome = true ∧
      (∀ l, get_all_peers env interface_names = some l →
        l.lookup n = some ((get_peers env n).getD [])) ∧
      (env.peersResp n = PeersApiResult.httpError 404 → get_peers env n = some []) ∧
      (∀ code, code ≠ 404 → env.peersResp n = PeersApiResult.httpError code →
        get_peers env n = Option.none) := by
  refine ⟨rfl, ?_, ?_, ?_⟩
  · intro l hl
    unfold get_all_peers at hl
    rw [foldl_snoc_eq_map (fun m => (m, peersOrEmpty env m)) interface_names []] at hl
    simp only [List.nil_append, Option.some_inj] at hl
    rw [hl.symm, lookup_pair_map (fun m => peersOrEmpty env m) interface_names n hn]
    unfold peersOrEmpty
    cases get_peers env n with
    | some peers => rfl
    | none => rfl
  · intro h404
    unfold get_peers
    rw [h404]
    rfl
  · intro code hcode herr
    unfold get_peers
    rw [herr]
    simp [hcode]

/-- Environment whose peer fetches all fail with a 404 HTTPError. -/
def apiEnv404 : ApiEnv where
  interfacesResp := Option.none
  peersResp := fun _ => PeersApiResult.httpError 404

/-- Witness for the amended C5 at a concrete environment and name. -/
theorem c5_amended_witness :
    (get_all_peers apiEnv404 ["wg1"]).isSome = true ∧
      (((get_all_peers apiEnv404 ["wg1"]).getD []).lookup "wg1" =
        some ((get_peers apiEnv404 "wg1").getD [])) ∧
      get_peers apiEnv404 "wg1" = some [] := by
  have h := c5_amended apiEnv404 ["wg1"] "wg1" (List.mem_singleton.mpr rfl)
  exact ⟨h.1, h.2.1 _ rfl, h.2.2.1 rfl⟩

/-- Python `configs.get(interface_name, '')` flattened through the falsy
check of `parse_config_content`: a missing key defaults to the empty
string, and a present-but-None value (a config file that could not be read)
is also falsy, so both parse to the empty details exactly like the empty
string does. -/
def configGet (configs : List (String × Option String)) (interface_name : String) : String :=
  match configs.lookup interface_name with
  | some (some content) => content
  | some Option.none => ""
  | Option.none => ""

/-- Row shape built by `DataProcessor.process_interfaces` and upserted by
`SyncDatabase.sync_interfaces`. -/
structure InterfaceRecordSig where
  name : String
  private_key : Option String
  public_key : String
  address : String
  listen_port : Int
  subnet : String
  endpoint : String
deriving DecidableEq

/-- One iteration of the `process_interfaces` loop (data_processor.py lines
91-112): parse the interface's config, encrypt a truthy config private key,
and merge API public key and listen port (the API listen port wins whenever
the API dictionary supplies the key) with config-sourced address, subnet
and endpoint. -/
def processOneInterface (c : Cipher) (configs : List (String × Option String))
    (subnetFor : String → Option SubnetConfig) (entry : String × ApiInterface) :
    InterfaceRecordSig :=
  let interface_name := entry.1
  let interface_data := entry.2
  let config_details :=
    parse_config_content (configGet configs interface_name) interface_name
      (subnetFor interface_name)
  let private_key_raw := config_details.private_key.getD ""
  let private_key_encrypted :=
    if private_key_raw ≠ "" then encrypt c private_key_raw else Option.none
  { name := interface_name
    private_key := private_key_encrypted
    public_key := interface_data.public_key.getD ""
    address := config_details.address.getD ""
    listen_port :=
      match interface_data.listen_port with
      | some p => p
      | Option.none => config_details.listen_port.getD 0
    subnet := config_details.subnet.getD ""
    endpoint := config_details.endpoint.getD "" }

/-- Embedding of `DataProcessor.process_interfaces` (data_processor.py
lines 78-114): one record is appended per interface reported by the API. -/
def process_interfaces (c : Cipher) (wgrest_interfaces : List (String × ApiInterface))
    (configs : List (String × Option String))
    (subnetFor : String → Option SubnetConfig) : List InterfaceRecordSig :=
  wgrest_interfaces.foldl
    (fun acc entry => acc ++ [processOneInterface c configs subnetFor entry]) []

/-- Default interface record used only to state positional lookups. -/
def defaultInterfaceRecordSig : InterfaceRecordSig where
  name := ""
  private_key := Option.none
  public_key := ""
  address := ""
  listen_port := 0
  subnet := ""
  endpoint := ""

/-- Default API entry used only to state positional lookups. -/
def defaultApiEntry : String × ApiInterface := ("", {})

/-- C7: `process_interfaces` emits exactly one record per API-reported
interface; the record's public key comes from the API, its address, subnet
and endpoint from the parsed config, its listen port is the API value
whenever the API supplies the key and the config value (default 0)
otherwise, and a truthy config private key is stored as ciphertext that
decrypts back to the config's value. -/
theorem c7_interface_merge (c : Cipher) (wgrest_interfaces : List (String × ApiInterface))
    (configs : List (String × Option String)) (subnetFor : String → Option SubnetConfig)
    (i : Nat) (hi : i < wgrest_interfaces.length) :
    (process_interfaces c wgrest_interfaces configs subnetFor).length =
        wgrest_interfaces.length ∧
      ((process_interfaces c wgrest_interfaces configs subnetFor).getD i
          defaultInterfaceRecordSig).name = (wgrest_interfaces.getD i defaultApiEntry).1 ∧
      ((process_interfaces c wgrest_interfaces configs subnetFor).getD i
          defaultInterfaceRecordSig).public_key =
        ((wgrest_interfaces.getD i defaultApiEntry).2.public_key.getD "") ∧
      ((process_interfaces c wgrest_interfaces configs subnetFor).getD i
          defaultInterfaceRecordSig).address =
        ((parse_config_content (configGet configs (wgrest_interfaces.getD i defaultApiEntry).1)
            (wgrest_interfaces.getD i defaultApiEntry).1
            (subnetFor (wgrest_interfaces.getD i defaultApiEntry).1)).address.getD "") ∧
      ((process_interfaces c wgrest_interfaces configs subnetFor).getD i
          defaultInterfaceRecordSig).subnet =
        ((parse_config_content (configGet configs (wgrest_interfaces.getD i defaultApiEntry).1)
            (wgrest_interfaces.getD i defaultApiEntry).1
            (subnetFor (wgrest_interfaces.getD i defaultApiEntry).1)).subnet.getD "") ∧
      ((process_interfaces c wgrest_interfaces configs subnetFor).getD i
          defaultInterfaceRecordSig).endpoint =
        ((parse_config_content (configGet configs (wgrest_interfaces.getD i defaultApiEntry).1)
            (wgrest_interfaces.getD i defaultApiEntry).1
            (subnetFor (wgrest_interfaces.getD i defaultApiEntry).1)).endpoint.getD "") ∧
      ((process_interfaces c wgrest_interfaces configs subnetFor).getD i
          defaultInterfaceRecordSig).listen_port =
        (match (wgrest_interfaces.getD i defaultApiEntry).2.listen_port with
          | some p => p
          | Option.none =>
            (parse_config_content (configGet configs (wgrest_interfaces.getD i defaultApiEntry).1)
                (wgrest_interfaces.getD i defaultApiEntry).1
                (subnetFor (wgrest_interfaces.getD i defaultApiEntry).1)).listen_port.getD 0) ∧
      (∀ pk : String,
        (parse_config_content (configGet configs (wgrest_interfaces.getD i defaultApiEntry).1)
            (wgrest_interfaces.getD i defaultApiEntry).1
            (subnetFor (wgrest_interfaces.getD i defaultApiEntry).1)).private_key = some pk →
        pk ≠ "" →
        (((process_interfaces c wgrest_interfaces configs subnetFor).getD i
            defaultInterfaceRecordSig).private_key.bind (fun e => decrypt c e)) = some pk) := by
  have hmap : process_interfaces c wgrest_interfaces configs subnetFor =
      wgrest_interfaces.map (processOneInterface c configs subnetFor) := by
    unfold process_interfaces
    rw [foldl_snoc_eq_map (processOneInterface c configs subnetFor) wgrest_interfaces []]
    simp
  have hlen : (process_interfaces c wgrest_interfaces configs subnetFor).length =
      wgrest_interfaces.length := by rw [hmap]; simp
  have hget : (process_interfaces c wgrest_interfaces configs subnetFor).getD i
      defaultInterfaceRecordSig =
      processOneInterface c configs subnetFor (wgrest_interfaces.getD i defaultApiEntry) := by
    rw [hmap]
    rw [List.getD_eq_getElem _ _ (by simpa using hi), List.getD_eq_getElem _ _ hi]
    simp
  refine ⟨hlen, ?_, ?_, ?_, ?_, ?_, ?_, ?_⟩
  · rw [hget]; rfl
  · rw [hget]; rfl
  · rw [hget]; rfl
  · rw [hget]; rfl
  · rw [hget]; rfl
  · rw [hget]; rfl
  · intro pk hpk hne
    rw [hget]
    show ((if (parse_config_content (configGet configs (wgrest_interfaces.getD i defaultApiEntry).1)
        (wgrest_interfaces.getD i defaultApiEntry).1
        (subnetFor (wgrest_interfaces.getD i defaultApiEntry).1)).private_key.getD "" ≠ "" then
          encrypt c ((parse_config_content (configGet configs (wgrest_interfaces.getD i defaultApiEntry).1)
            (wgrest_interfaces.getD i defaultApiEntry).1
            (subnetFor (wgrest_interfaces.getD i defaultApiEntry).1)).private_key.getD "")
        else Option.none).bind (fun e => decrypt c e)) = some pk
    rw [hpk]
    simp only [Option.getD_some]
    rw [if_pos hne]
    unfold encrypt decrypt
    rw [if_neg hne]
    simp only [Option.some_bind]
    rw [if_neg (c.enc_ne pk)]
    exact c.dec_enc pk

/-- Subnet lookup returning no configuration for any interface. -/
def sfEmpty : String → Option SubnetConfig := fun _ => Option.none

/-- Config files for the spec scenario: wg0's config carries a private key
and an address. -/
def cfgScenario : List (String × Option String) :=
  [("wg0", some "PrivateKey = k1\nAddress = 10.6.0.1/24")]

/-- API report for the spec scenario: wg0 with a public key and listen
port 51820. -/
def wiScenario : List (String × ApiInterface) :=
  [("wg0", { public_key := some "p1", listen_port := some 51820 })]

/-- Witness for C7 on the spec scenario: listen port 51820 from the API,
public key from the API, address from the config, and a private key
ciphertext decrypting to k1. -/
theorem c7_interface_merge_witness :
    ((process_interfaces concreteCipher wiScenario cfgScenario sfEmpty).getD 0
        defaultInterfaceRecordSig).listen_port = 51820 ∧
      ((process_interfaces concreteCipher wiScenario cfgScenario sfEmpty).getD 0
        defaultInterfaceRecordSig).public_key = "p1" ∧
      ((process_interfaces concreteCipher wiScenario cfgScenario sfEmpty).getD 0
        defaultInterfaceRecordSig).address = "10.6.0.1/24" ∧
      (((process_interfaces concreteCipher wiScenario cfgScenario sfEmpty).getD 0
        defaultInterfaceRecordSig).private_key.bind
          (fun e => decrypt concreteCipher e)) = some "k1" := by
  have h := c7_interface_merge concreteCipher wiScenario cfgScenario sfEmpty 0 (by decide)
  exact ⟨h.2.2.2.2.2.2.1, h.2.2.1, h.2.2.2.1, h.2.2.2.2.2.2.2 "k1" rfl (by decide)⟩

/-- Embedding of `WireGuardConfigParser.generate_public_key_from_private`
(config_parser.py lines 119-161): the external `wg pubkey` subprocess is an
oracle returning its stdout on exit code 0 and nothing on timeout, missing
tool or failure; a blank private key and every failure produce the empty
string. -/
def generate_public_key_from_private (wgTool : String → Option String)
    (private_key : String) : String :=
  if private_key = "" ∨ private_key.trim = "" then ""
  else
    match wgTool (private_key.trim ++ "\n") with
    | some stdout => stdout.trim
    | Option.none => ""

/-- Embedding of `DataProcessor._get_public_key_from_api` (data_processor.py
lines 244-252): a truthy interfaces response containing the name yields its
public key (default empty); everything else, including errors, yields the
empty string. -/
def get_public_key_from_api (env : ApiEnv) (interface_name : String) : String :=
  match get_interfaces env with
  | some interfaces =>
    match interfaces.lookup interface_name with
    | some d => d.public_key.getD ""
    | Option.none => ""
  | Option.none => ""

/-- One iteration of the `process_server_keys` loop (data_processor.py
lines 42-74): skip falsy configs, skip missing private keys, derive the
public key with API fallback, skip when neither works, skip when encryption
fails, otherwise emit the (name, encrypted private key, public key) tuple. -/
def processServerKeyItem (c : Cipher) (wgTool : String → Option String) (env : ApiEnv)
    (subnetFor : String → Option SubnetConfig) (entry : String × Option String) :
    Option (String × String × String) :=
  let interface_name := entry.1
  match entry.2 with
  | Option.none => Option.none
  | some config_content =>
    if config_content = "" then Option.none
    else
      let config_details :=
        parse_config_content config_content interface_name (subnetFor interface_name)
      let private_key := config_details.private_key.getD ""
      if private_key = "" then Option.none
      else
        let generated := generate_public_key_from_private wgTool private_key
        let public_key :=
          if generated = "" then get_public_key_from_api env interface_name else generated
        if public_key = "" then Option.none
        else
          match encrypt c private_key with
          | some encrypted_private_key => some (interface_name, encrypted_private_key, public_key)
          | Option.none => Option.none

/-- Embedding of `DataProcessor.process_server_keys` (data_processor.py
lines 29-76): best-effort per item, skipped items contribute nothing. -/
def process_server_keys (c : Cipher) (wgTool : String → Option String) (env : ApiEnv)
    (configs : List (String × Option String))
    (subnetFor : String → Option SubnetConfig) : List (String × String × String) :=
  configs.foldl
    (fun acc entry =>
      match processServerKeyItem c wgTool env subnetFor entry with
      | some t => acc ++ [t]
      | Option.none => acc) []

/-- One row of the sync_status table as written by
`SyncDatabase.update_sync_status` (database.py lines 144-172). -/
structure SyncStatusRow where
  peer_count_wg0 : Nat
  peer_count_wg1 : Nat
  status : String
deriving DecidableEq

/-- Embedding of `SyncDatabase.update_sync_status`: the wg0/wg1 counts are
read from the mapping with default 0 and one row is built. -/
def update_sync_status (peer_counts : List (String × Nat)) (status : String) :
    SyncStatusRow where
  peer_count_wg0 := (peer_counts.lookup "wg0").getD 0
  peer_count_wg1 := (peer_counts.lookup "wg1").getD 0
  status := status

/-- Outcome oracle for the database statements issued during one run: each
flag says whether the corresponding statement batch succeeds or raises. -/
structure DbOracle where
  serverKeysOk : Bool := true
  interfacesOk : Bool := true
  peersOk : Bool := true
  statusOk : Bool := true
  failedStatusOk : Bool := true

/-- Observable result of one `sync_to_database` run: the sync_status rows
appended during the run and whether the run re-raised to its caller. -/
structure SyncRunResult where
  statusRows : List SyncStatusRow
  raised : Bool
deriving DecidableEq

/-- The except-path of `sync_to_database` (sync_modular.py lines 135-142):
a best-effort failed-status row is attempted, its own failure is swallowed,
and the exception is re-raised. -/
def syncFailureResult (db : DbOracle) : SyncRunResult where
  statusRows := if db.failedStatusOk then [update_sync_status [] "failed"] else []
  raised := true

/-- Embedding of `WgrestSyncService._fetch_wgrest_data` (sync_modular.py
lines 144-164): None as soon as the interfaces listing fails, otherwise the
interfaces together with the always-present peer mapping. -/
def fetchWgrestData (env : ApiEnv) :
    Option (List (String × ApiInterface) × List (String × List PeerJson)) :=
  match get_interfaces env with
  | Option.none => Option.none
  | some wgrest_interfaces =>
    match get_all_peers env ["wg0", "wg1"] with
    | Option.none => Option.none
    | some all_peers => some (wgrest_interfaces, all_peers)

/-- Embedding of `WgrestSyncService.sync_to_database` (sync_modular.py
lines 89-142): a failed fetch returns early with no write and NO status
row; otherwise server keys, interfaces and peers are synced in order (each
statement batch only issued when its data is non-empty), a raising batch
diverts to the except path, and a fully successful run appends one
completed row. -/
def sync_to_database (c : Cipher) (wgTool : String → Option String) (env : ApiEnv)
    (configs : List (String × Option String)) (subnetFor : String → Option SubnetConfig)
    (db : DbOracle) : SyncRunResult :=
  match fetchWgrestData env with
  | Option.none => { statusRows := [], raised := false }
  | some fetched =>
    let server_keys_data := process_server_keys c wgTool env configs subnetFor
    if server_keys_data.isEmpty = false ∧ db.serverKeysOk = false then syncFailureResult db
    else
      let interfaces_data := process_interfaces c fetched.1 configs subnetFor
      if interfaces_data.isEmpty = false ∧ db.interfacesOk = false then syncFailureResult db
      else
        let processed := process_peers c fetched.2
        if processed.1.isEmpty = false ∧ db.peersOk = false then syncFailureResult db
        else if db.statusOk = false then syncFailureResult db
        else { statusRows := [update_sync_status processed.2 "completed"], raised := false }

/-- The wg pubkey oracle that always fails. -/
def wgToolFail : String → Option String := fun _ => Option.none

/-- Environment whose interfaces listing is unreachable. -/
def apiEnvDown : ApiEnv where
  interfacesResp := Option.none
  peersResp := fun _ => PeersApiResult.requestError

/-- C3 fails on the code: a source-unavailable run (interfaces fetch
returns None) aborts before any write and appends NO sync-status row at
all, not a failed row. -/
theorem c3_counterexample :
    get_interfaces apiEnvDown = Option.none ∧
      (sync_to_database concreteCipher wgToolFail apiEnvDown [] sfEmpty
        {}).statusRows = [] := by
  exact ⟨rfl, rfl⟩

/-- C3 amended: a run whose remote fetch fails appends no status row and
does not raise; every run that gets past the fetch appends exactly one row,
with status completed when the run succeeds, and on a failed run a single
failed row exactly when the best-effort failed-status write itself
succeeds (no row when it also fails). -/
theorem c3_amended (c : Cipher) (wgTool : String → Option String) (env : ApiEnv)
    (configs : List (String × Option String)) (subnetFor : String → Option SubnetConfig)
    (db : DbOracle) :
    (fetchWgrestData env = Option.none →
      (sync_to_database c wgTool env configs subnetFor db).statusRows = [] ∧
        (sync_to_database c wgTool env configs subnetFor db).raised = false) ∧
      (∀ fetched, fetchWgrestData env = some fetched →
        ((sync_to_database c wgTool env configs subnetFor db).raised = false →
          (sync_to_database c wgTool env configs subnetFor db).statusRows.map
            SyncStatusRow.status = ["completed"]) ∧
        ((sync_to_database c wgTool env configs subnetFor db).raised = true →
          (sync_to_database c wgTool env configs subnetFor db).statusRows.map
            SyncStatusRow.status = if db.failedStatusOk then ["failed"] else [])) := by
  constructor
  · intro h
    unfold sync_to_database
    rw [h]
    exact ⟨rfl, rfl⟩
  · intro fetched h
    unfold sync_to_database
    rw [h]
    have hfail : (syncFailureResult db).raised = true ∧
        (syncFailureResult db).statusRows.map SyncStatusRow.status =
          (if db.failedStatusOk then [update_sync_status [] "failed"] else []).map
            SyncStatusRow.status := ⟨rfl, rfl⟩
    by_cases h1 : (process_server_keys c wgTool env configs subnetFor).isEmpty = false ∧
        db.serverKeysOk = false
    · simp only [if_pos h1]
      constructor
      · intro hr; rw [hfail.1] at hr; cases hr
      · intro hr
        rw [hfail.2]
        cases hdb : db.failedStatusOk
        · simp [hdb]
        · simp [hdb, update_sync_status]
    · simp only [if_neg h1]
      by_cases h2 : (process_interfaces c fetched.1 configs subnetFor).isEmpty = false ∧
          db.interfacesOk = false
      · simp only [if_pos h2]
        constructor
        · intro hr; rw [hfail.1] at hr; cases hr
        · intro hr
          rw [hfail.2]
          cases hdb : db.failedStatusOk
          · simp [hdb]
          · simp [hdb, update_sync_status]
      · simp only [if_neg h2]
        by_cases h3 : (process_peers c fetched.2).1.isEmpty = false ∧ db.peersOk = false
        · simp only [if_pos h3]
          constructor
          · intro hr; rw [hfail.1] at hr; cases hr
          · intro hr
            rw [hfail.2]
            cases hdb : db.failedStatusOk
            · simp [hdb]
            · simp [hdb, update_sync_status]
        · simp only [if_neg h3]
          by_cases h4 : db.statusOk = false
          · simp only [if_pos h4]
            constructor
            · intro hr; rw [hfail.1] at hr; cases hr
            · intro hr
              rw [hfail.2]
              cases hdb : db.failedStatusOk
              · simp [hdb]
              · simp [hdb, update_sync_status]
          · simp only [if_neg h4]
            exact ⟨fun _ => rfl, fun hr => absurd hr (by simp)⟩

/-- Environment where the interfaces listing succeeds with no devices and
both peer fetches succeed with no peers. -/
def apiEnvUp : ApiEnv where
  interfacesResp := some []
  peersResp := fun _ => PeersApiResult.success []

/-- Witness for the amended C3: a fully successful run appends exactly one
completed row. -/
theorem c3_amended_witness :
    (sync_to_database concreteCipher wgToolFail apiEnvUp [] sfEmpty
        {}).statusRows.map SyncStatusRow.status = ["completed"] := by
  have h := c3_amended concreteCipher wgToolFail apiEnvUp [] sfEmpty {}
  exact (h.2 ([], [("wg0", []), ("wg1", [])]) rfl).1 rfl

/-- Reconciliation-coordination state observable across trigger sources:
the number of `sync_to_database` executions currently in flight.  A state
is entered by the thread a trigger spawns and left when that run finishes. -/
structure CoordState where
  running : Nat
deriving DecidableEq

/-- Embedding of the webhook `/sync` route handler
(webhook.py lines 39-58): a missing or mismatched bearer token is rejected
with 401; an authorized call immediately starts a new background thread
running the sync callback — the handler consults no lock, no queue and no
running-state before dispatching — and replies 200.  The returned pair is
the coordination state after dispatch and the HTTP status code. -/
def webhook_sync_route (api_key : String) (auth_header : Option String)
    (s : CoordState) : CoordState × Nat :=
  match auth_header with
  | Option.none => (s, 401)
  | some h =>
    if h.isEmpty || h ≠ "Bearer " ++ api_key then (s, 401)
    else ({ running := s.running + 1 }, 200)

/-- C4 evaluated at the failing input: two authorized `/sync` calls
arriving while nothing serializes them are both accepted (200) and leave
two reconciliations running concurrently — the handler enforces no mutual
exclusion, so the peer-table write phase can be entered by two runs at
once. -/
theorem c4_failing_input :
    (webhook_sync_route "secret" (some "Bearer secret") { running := 0 }).2 = 200 ∧
      (webhook_sync_route "secret" (some "Bearer secret")
        (webhook_sync_route "secret" (some "Bearer secret") { running := 0 }).1).2 = 200 ∧
      (webhook_sync_route "secret" (some "Bearer secret")
        (webhook_sync_route "secret" (some "Bearer secret") { running := 0 }).1).1.running = 2 := by
  exact ⟨by decide, by decide, by decide⟩
